import Mathlib

/-!
# io_uring completion engine of qcoro (`src/qcoro/io/ioengine_iouring.cpp`)

A shallow embedding of the engine (`IOEnginePrivate`, `IOEngine`), of the two
operation records (`ReadOperationPrivate`, `WriteOperationPrivate`) and of the
awaitable hooks, followed by theorems about them.

Conventions of the embedding.

* C++ `int` / `int32_t` values are `Int`s; the one arithmetic operation the
  source performs on them, the unary minus in `static_cast<std::errc>(-size)`,
  is taken modulo `2^32` (`negInt32`).
* `std::size_t` values are `Nat`s; the only operation on them is `std::min`.
* Objects that the source reaches through pointers (the records, reached
  through the `user_data` tag of a ring entry) live in `World.heap`, a map
  from addresses to records; address `0` is the null pointer.
* Results of calls into the operating system and liburing that the program
  cannot predict (the value returned by `eventfd`, `io_uring_queue_init`,
  `io_uring_register_eventfd`, `io_uring_wait_cqe`) are explicit arguments.
* Undefined behaviour and failed assertions are `none`.
-/

namespace QCoro

/-! ## Constants and machine integers -/

/-- The constant `ringEntryCount` of the source. -/
def ringEntryCount : Nat := 8

/-- The constant `readBufSize` of the source. -/
def readBufSize : Nat := 4096

/-- Reduction of an integer to the range of a signed 32-bit integer. -/
def wrapInt32 (x : Int) : Int := (x + 2147483648) % 4294967296 - 2147483648

/-- Unary minus on a 32-bit `int`, as in `-size` and `-cqe->res`. -/
def negInt32 (x : Int) : Int := wrapInt32 (-x)

/-- The values of a signed 32-bit integer. -/
def isInt32 (x : Int) : Prop := -2147483648 ≤ x ∧ x ≤ 2147483647

instance (x : Int) : Decidable (isInt32 x) := by unfold isInt32; infer_instance

/-- One byte of a `QByteArray`. -/
abbrev Byte := Fin 256

/-- A `coroutine_handle<>`, identified by its frame address; the
default-constructed handle has address `0`. -/
abbrev CoroutineHandle := Nat

/-- The default-constructed (empty) `coroutine_handle<>`. -/
def nullCoroutine : CoroutineHandle := 0

/-- The type `QCoro::Expected<T>`: a value, or an error built by
`QCoro::makeUnexpected(QCoro::ErrorCode(static_cast<std::errc>(e)))`, kept as
the integer `e`. -/
inductive Expected (α : Type) where
  | value (v : α)
  | unexpected (errc : Int)
  deriving DecidableEq, Repr

/-- A pending `QTimer::singleShot(msec, [coroutine]() { coroutine.resume(); })`. -/
structure SingleShot where
  msec : Nat
  coroutine : CoroutineHandle
  deriving DecidableEq, Repr

/-! ## Operation records -/

/-- The class `ReadOperationPrivate` (its data members). -/
structure ReadOperationPrivate where
  m_complete : Bool := false
  m_awaitingCoroutine : CoroutineHandle := nullCoroutine
  m_res : Expected (List Byte)
  deriving DecidableEq, Repr

/-- The class `WriteOperationPrivate` (its data members, `m_res{0}`). -/
structure WriteOperationPrivate where
  m_complete : Bool := false
  m_awaitingCoroutine : CoroutineHandle := nullCoroutine
  m_res : Expected Int := Expected.value 0
  deriving DecidableEq, Repr

/-- The method `ReadOperationPrivate::complete(int32_t size)`. Returns the
record after the call and the timers it registered. `m_res->size()` on a
record that holds an error dereferences an empty `Expected`: `none`. -/
def ReadOperationPrivate.complete (size : Int) (self : ReadOperationPrivate) :
    Option (ReadOperationPrivate × List SingleShot) :=
  let stored : Option (Expected (List Byte)) :=
    if size < 0 then
      some (Expected.unexpected (negInt32 size))
    else
      match self.m_res with
      | Expected.value buf =>
        if size < (buf.length : Int) then
          some (Expected.value (buf.take size.toNat))
        else
          some (Expected.value buf)
      | Expected.unexpected _ => none
  match stored with
  | none => none
  | some res =>
    some ({ self with m_res := res, m_complete := true },
          [{ msec := 0, coroutine := self.m_awaitingCoroutine }])

/-- The method `WriteOperationPrivate::complete(int32_t size)`. Returns the
record after the call and the timers it registered. -/
def WriteOperationPrivate.complete (size : Int) (self : WriteOperationPrivate) :
    WriteOperationPrivate × List SingleShot :=
  let res : Expected Int :=
    if size < 0 then Expected.unexpected (negInt32 size) else Expected.value size
  ({ self with m_res := res, m_complete := true },
   [{ msec := 0, coroutine := self.m_awaitingCoroutine }])

/-- The abstract class `IOUringOperation` with its two final subclasses. -/
inductive IOUringOperation where
  | read (r : ReadOperationPrivate)
  | write (w : WriteOperationPrivate)
  deriving DecidableEq, Repr

/-- Virtual dispatch of `IOUringOperation::complete`. -/
def IOUringOperation.complete (size : Int) : IOUringOperation →
    Option (IOUringOperation × List SingleShot)
  | IOUringOperation.read r =>
    match r.complete size with
    | none => none
    | some (r', ts) => some (IOUringOperation.read r', ts)
  | IOUringOperation.write w =>
    let (w', ts) := w.complete size
    some (IOUringOperation.write w', ts)

/-- The member `m_complete` of either record. -/
def IOUringOperation.m_complete : IOUringOperation → Bool
  | IOUringOperation.read r => r.m_complete
  | IOUringOperation.write w => w.m_complete

/-- The member `m_awaitingCoroutine` of either record. -/
def IOUringOperation.m_awaitingCoroutine : IOUringOperation → CoroutineHandle
  | IOUringOperation.read r => r.m_awaitingCoroutine
  | IOUringOperation.write w => w.m_awaitingCoroutine

/-- Whether `complete` may dereference `m_res`: a read record must still hold
its buffer; a write record assigns `m_res` without reading it. -/
def IOUringOperation.holdsBuffer : IOUringOperation → Bool
  | IOUringOperation.read r =>
    match r.m_res with
    | Expected.value _ => true
    | Expected.unexpected _ => false
  | IOUringOperation.write _ => true

/-! ## Awaitable hooks

`ReadOperation` and `WriteOperation` hold a `unique_ptr` `d` to their record;
each hook is given the record `*d`. -/

/-- The hook `ReadOperation::await_ready`. -/
def ReadOperation.await_ready (d : ReadOperationPrivate) : Bool := d.m_complete

/-- The hook `ReadOperation::await_suspend`. -/
def ReadOperation.await_suspend (awaitingCoroutine : CoroutineHandle)
    (d : ReadOperationPrivate) : ReadOperationPrivate :=
  { d with m_awaitingCoroutine := awaitingCoroutine }

/-- The hook `ReadOperation::await_resume`. -/
def ReadOperation.await_resume (d : ReadOperationPrivate) : Expected (List Byte) := d.m_res

/-- The hook `WriteOperation::await_ready`. -/
def WriteOperation.await_ready (d : WriteOperationPrivate) : Bool := d.m_complete

/-- The hook `WriteOperation::await_suspend`. -/
def WriteOperation.await_suspend (awaitingCoroutine : CoroutineHandle)
    (d : WriteOperationPrivate) : WriteOperationPrivate :=
  { d with m_awaitingCoroutine := awaitingCoroutine }

/-- The hook `WriteOperation::await_resume`. -/
def WriteOperation.await_resume (d : WriteOperationPrivate) : Expected Int := d.m_res

/-- Readiness of either awaitable, given the record it points to. -/
def IOUringOperation.await_ready : IOUringOperation → Bool
  | IOUringOperation.read r => ReadOperation.await_ready r
  | IOUringOperation.write w => WriteOperation.await_ready w

/-! ## The ring, the operating system and the event loop -/

/-- The opcode that `io_uring_prep_read` / `io_uring_prep_write` puts in an entry. -/
inductive Opcode where
  | nop
  | read
  | write
  deriving DecidableEq, Repr

/-- The memory an entry points to: the buffer `m_res->data()` of the record at
an address, or memory supplied by the caller of `write`. -/
inductive BufferRef where
  | null
  | recordBuffer (owner : Nat)
  | callerData (data : Nat)
  deriving DecidableEq, Repr

/-- The fields of `struct io_uring_sqe` that the source sets. -/
structure Sqe where
  opcode : Opcode := Opcode.nop
  fd : Int := 0
  addr : BufferRef := BufferRef.null
  len : Nat := 0
  off : Nat := 0
  user_data : Nat := 0
  deriving DecidableEq, Repr

/-- The fields of `struct io_uring_cqe` that the source reads. -/
structure Cqe where
  user_data : Nat
  res : Int
  deriving DecidableEq, Repr

/-- The state of `struct io_uring` together with the kernel side of the ring:
`created` holds between a successful `io_uring_queue_init` and
`io_uring_queue_exit`; `ring_fd` is the member of that name, the descriptor of
the ring, which is `0` in the zero-initialised structure that
`std::make_unique<IOEnginePrivate>()` builds; `submitted` are the entries
handed to the kernel; `cq` are the completion entries not yet consumed, oldest
first; `seen` are the entries marked consumed by `io_uring_cqe_seen`. -/
structure io_uring where
  created : Bool := false
  ring_fd : Int := 0
  entries : Nat := 0
  eventfd : Option Int := none
  submitted : List Sqe := []
  cq : List Cqe := []
  seen : List Cqe := []
  deriving DecidableEq, Repr

/-- A `QSocketNotifier` of type `Read` on a descriptor. -/
structure QSocketNotifier where
  socket : Int
  enabled : Bool
  deriving DecidableEq, Repr

/-- The class `IOEnginePrivate` (its data members, `evfd = 0`). -/
structure IOEnginePrivate where
  ring : io_uring := {}
  socketNotifier : Option QSocketNotifier := none
  evfd : Int := 0
  deriving DecidableEq, Repr

/-- A call that leaves the process, in the order made. -/
inductive Call where
  | eventfd
  | close (fd : Int)
  | io_uring_queue_init (entries : Nat)
  | io_uring_register_eventfd (fd : Int)
  | io_uring_unregister_eventfd
  | io_uring_queue_exit
  deriving DecidableEq, Repr

/-- Everything the engine code reads or writes: the engine object `d`, the
records allocated by `read` and `write`, the timers registered with the event
loop, the coroutines resumed so far, the descriptors open in the process, the
counter of the wakeup descriptor, the number of `qWarning` lines and the calls
made. -/
structure World where
  d : IOEnginePrivate := {}
  heap : Nat → Option IOUringOperation := fun _ => none
  allocated : Nat := 0
  timers : List SingleShot := []
  resumed : List CoroutineHandle := []
  openFds : List Int := []
  evCounter : Nat := 0
  warnings : Nat := 0
  calls : List Call := []

/-- The constructor `IOEngine::IOEngine()`: a fresh `IOEnginePrivate`. -/
def IOEngine.ctor : World := {}

/-- The system call `::eventfd(0, 0)` with result `ret`: a new descriptor when
`ret` is not negative. -/
def sys_eventfd (ret : Int) (w : World) : World :=
  { w with
    openFds := if ret < 0 then w.openFds else ret :: w.openFds,
    evCounter := if ret < 0 then w.evCounter else 0,
    calls := w.calls ++ [Call.eventfd] }

/-- The system call `::close(fd)`. -/
def sys_close (fd : Int) (w : World) : World :=
  { w with openFds := w.openFds.erase fd, calls := w.calls ++ [Call.close fd] }

/-- The call `io_uring_queue_init(entries, &ring, 0)` with result `ret`: when
`ret` is not negative the ring exists afterwards and `ring.ring_fd` is the new
descriptor `ringFd` that the kernel opened for it. -/
def io_uring_queue_init (ret ringFd : Int) (entries : Nat) (w : World) : World :=
  { w with
    d := { w.d with
      ring :=
        if ret < 0 then w.d.ring
        else { created := true, ring_fd := ringFd, entries := entries } },
    openFds := if ret < 0 then w.openFds else ringFd :: w.openFds,
    calls := w.calls ++ [Call.io_uring_queue_init entries] }

/-- The call `io_uring_register_eventfd(&ring, fd)` with result `ret`. -/
def io_uring_register_eventfd (ret : Int) (fd : Int) (w : World) : World :=
  { w with
    d := { w.d with
      ring := if ret < 0 then w.d.ring else { w.d.ring with eventfd := some fd } },
    calls := w.calls ++ [Call.io_uring_register_eventfd fd] }

/-- The call `io_uring_unregister_eventfd(&ring)`. -/
def io_uring_unregister_eventfd (w : World) : World :=
  { w with
    d := { w.d with ring := { w.d.ring with eventfd := none } },
    calls := w.calls ++ [Call.io_uring_unregister_eventfd] }

/-- The call `io_uring_queue_exit(&ring)`: unmaps the rings and closes
`ring->ring_fd`, whatever the structure holds. -/
def io_uring_queue_exit (w : World) : World :=
  { w with
    d := { w.d with ring := { w.d.ring with created := false } },
    openFds := w.openFds.erase w.d.ring.ring_fd,
    calls := w.calls ++ [Call.io_uring_queue_exit] }

/-- The call `io_uring_get_sqe(ring)`: a blank entry. Every entry obtained in
the source is submitted before the next one is obtained, so the submission
queue is never full. -/
def io_uring_get_sqe (_ring : io_uring) : Sqe := {}

/-- The call `io_uring_prep_read(sqe, fd, buf, nbytes, offset)`; the parameter
`nbytes` is an `unsigned`, so the length is reduced modulo `2^32`. -/
def io_uring_prep_read (_sqe : Sqe) (fd : Int) (buf : BufferRef) (nbytes offset : Nat) : Sqe :=
  { opcode := Opcode.read, fd := fd, addr := buf, len := nbytes % 4294967296, off := offset,
    user_data := 0 }

/-- The call `io_uring_prep_write(sqe, fd, buf, nbytes, offset)`; the parameter
`nbytes` is an `unsigned`, so the length is reduced modulo `2^32`. -/
def io_uring_prep_write (_sqe : Sqe) (fd : Int) (buf : BufferRef) (nbytes offset : Nat) : Sqe :=
  { opcode := Opcode.write, fd := fd, addr := buf, len := nbytes % 4294967296, off := offset,
    user_data := 0 }

/-- The call `io_uring_sqe_set_data(sqe, data)`. -/
def io_uring_sqe_set_data (sqe : Sqe) (data : Nat) : Sqe := { sqe with user_data := data }

/-- The call `io_uring_submit(ring)` for the one prepared entry. -/
def io_uring_submit (ring : io_uring) (sqe : Sqe) : io_uring :=
  { ring with submitted := ring.submitted ++ [sqe] }

/-- The call `io_uring_cqe_seen(&ring, cqe)` for the oldest entry of the ring. -/
def io_uring_cqe_seen (ring : io_uring) (cqe : Cqe) : io_uring :=
  { ring with cq := ring.cq.tail, seen := ring.seen ++ [cqe] }

/-- The call `io_uring_cqe_get_data(cqe)` followed by the cast to
`IOUringOperation *` and the dereference: `none` for the null pointer and for
an address that holds no record. -/
def io_uring_cqe_get_data (heap : Nat → Option IOUringOperation) (cqe : Cqe) :
    Option IOUringOperation :=
  if cqe.user_data = 0 then none else heap cqe.user_data

/-- The kernel posts a completion entry and signals the registered descriptor. -/
def kernelPost (cqe : Cqe) (w : World) : World :=
  { w with
    d := { w.d with ring := { w.d.ring with cq := w.d.ring.cq ++ [cqe] } },
    evCounter := w.evCounter + 1 }

/-- The event loop runs the oldest pending timer: its lambda calls
`coroutine.resume()`, which is undefined on the empty handle. -/
def fireTimer (w : World) : Option World :=
  match w.timers with
  | [] => some w
  | t :: rest =>
    if t.coroutine = nullCoroutine then none
    else some { w with timers := rest, resumed := w.resumed ++ [t.coroutine] }

/-! ## The engine -/

/-- The method `IOEnginePrivate::handleEventFd()`. `waitRet` is the value
returned by `io_uring_wait_cqe`; when it is not negative the call has stored
the oldest completion entry in `cqe` (with no entry in the ring it does not
return: `none`). `Q_ASSERT(op != nullptr)` failing is `none`. -/
def IOEnginePrivate.handleEventFd (waitRet : Int) (w : World) : Option World :=
  let w := { w with evCounter := 0 }
  if waitRet < 0 then
    some { w with warnings := w.warnings + 1 }
  else
    match w.d.ring.cq with
    | [] => none
    | cqe :: _ =>
      if cqe.res < 0 then
        let w := { w with warnings := w.warnings + 1 }
        some { w with d := { w.d with ring := io_uring_cqe_seen w.d.ring cqe } }
      else
        match io_uring_cqe_get_data w.heap cqe with
        | none => none
        | some op =>
          match op.complete cqe.res with
          | none => none
          | some (op', ts) =>
            let w := { w with
              heap := Function.update w.heap cqe.user_data (some op'),
              timers := w.timers ++ ts }
            some { w with d := { w.d with ring := io_uring_cqe_seen w.d.ring cqe } }

/-- The constructor `ReadOperationPrivate::ReadOperationPrivate(ring, fd, size,
offset)` of the record at address `this`. `QByteArray::resize` leaves the new
bytes uninitialised: byte `i` is `uninit i`. -/
def ReadOperationPrivate.ctor (this : Nat) (uninit : Nat → Byte) (ring : io_uring)
    (fd : Int) (size offset : Nat) : ReadOperationPrivate × io_uring :=
  let buf : List Byte := (List.range (min size readBufSize)).map uninit
  let sqe := io_uring_get_sqe ring
  let sqe := io_uring_prep_read sqe fd (BufferRef.recordBuffer this) buf.length offset
  let sqe := io_uring_sqe_set_data sqe this
  ({ m_res := Expected.value buf }, io_uring_submit ring sqe)

/-- The constructor `WriteOperationPrivate::WriteOperationPrivate(ring, fd,
data, dataLen, offset)` of the record at address `this`. -/
def WriteOperationPrivate.ctor (this : Nat) (ring : io_uring)
    (fd : Int) (data dataLen offset : Nat) : WriteOperationPrivate × io_uring :=
  let sqe := io_uring_get_sqe ring
  let sqe := io_uring_prep_write sqe fd (BufferRef.callerData data) dataLen offset
  let sqe := io_uring_sqe_set_data sqe this
  ({}, io_uring_submit ring sqe)

/-- The address `std::make_unique` returns for the next record: never null. -/
def World.newAddress (w : World) : Nat := w.allocated + 1

/-- The method `IOEngine::read(fd, size, offset)`. Returns the address held by
the `unique_ptr` of the returned `ReadOperation`. -/
def IOEngine.read (uninit : Nat → Byte) (fd : Int) (size offset : Nat) (w : World) :
    Nat × World :=
  let this := w.newAddress
  let (dd, ring) := ReadOperationPrivate.ctor this uninit w.d.ring fd size offset
  (this, { w with
    d := { w.d with ring := ring },
    heap := Function.update w.heap this (some (IOUringOperation.read dd)),
    allocated := w.allocated + 1 })

/-- The method `IOEngine::write(fd, data, dataLen, offset)`. Returns the
address held by the `unique_ptr` of the returned `WriteOperation`. -/
def IOEngine.write (fd : Int) (data dataLen offset : Nat) (w : World) : Nat × World :=
  let this := w.newAddress
  let (dd, ring) := WriteOperationPrivate.ctor this w.d.ring fd data dataLen offset
  (this, { w with
    d := { w.d with ring := ring },
    heap := Function.update w.heap this (some (IOUringOperation.write dd)),
    allocated := w.allocated + 1 })

/-- The method `IOEngine::init()`. `efd`, `qinit` and `reg` are the values
returned by `::eventfd`, `io_uring_queue_init` and `io_uring_register_eventfd`;
`ringFd` is the descriptor the kernel opens for the ring when
`io_uring_queue_init` succeeds. -/
def IOEngine.init (efd qinit reg ringFd : Int) (w : World) : Bool × World :=
  let w := sys_eventfd efd w
  let w := { w with d := { w.d with evfd := efd } }
  if w.d.evfd < 0 then
    (false, { w with warnings := w.warnings + 1 })
  else
    let w := { w with
      d := { w.d with socketNotifier := some { socket := w.d.evfd, enabled := true } } }
    let w := io_uring_queue_init qinit ringFd ringEntryCount w
    if qinit < 0 then
      let w := { w with warnings := w.warnings + 1 }
      let w := sys_close w.d.evfd w
      let w := { w with d := { w.d with evfd := 0 } }
      (false, w)
    else
      let w := io_uring_register_eventfd reg w.d.evfd w
      if reg < 0 then
        let w := { w with warnings := w.warnings + 1 }
        let w := sys_close w.d.evfd w
        let w := { w with d := { w.d with evfd := 0 } }
        (false, w)
      else
        (true, w)

/-- The destructor `IOEngine::~IOEngine()`, followed by the destruction of the
member `socketNotifier`. -/
def IOEngine.dtor (w : World) : World :=
  let w := io_uring_unregister_eventfd w
  let w :=
    if w.d.evfd > 0 then
      let w := sys_close w.d.evfd w
      { w with d := { w.d with evfd := 0 } }
    else w
  let w := io_uring_queue_exit w
  { w with d := { w.d with socketNotifier := none } }

/-- Every record of the heap can take a result: no read record has lost its
buffer. -/
def World.recordsHoldBuffer (w : World) : Prop :=
  ∀ a op, w.heap a = some op → op.holdsBuffer = true

/-! ## Concrete scenarios used to instantiate the theorems -/

/-- An initialised engine: `init` on a fresh engine, where `eventfd` returns
descriptor 5, both ring calls return 0 and the ring gets descriptor 6. -/
def exampleEngine : World := (IOEngine.init 5 0 0 6 IOEngine.ctor).2

/-- The engine after `write(3, data, 100, 0)`; the record is at address 1. -/
def exampleWrite : Nat × World := IOEngine.write 3 4096 100 0 exampleEngine

/-- The engine after `read(3, 10, 0)`; the record is at address 1. -/
def exampleRead : Nat × World := IOEngine.read (fun _ => 0) 3 10 0 exampleEngine

/-! ## Facts about the embedding shared by the theorems below -/

theorem negInt32_of_gt_min (r : Int) (hmin : -2147483648 < r) (hneg : r < 0) :
    negInt32 r = -r := by
  unfold negInt32 wrapInt32
  omega

theorem ReadOperationPrivate.ctor_m_res (this : Nat) (uninit : Nat → Byte) (ring : io_uring)
    (fd : Int) (size offset : Nat) :
    (ReadOperationPrivate.ctor this uninit ring fd size offset).1 =
      { m_complete := false, m_awaitingCoroutine := nullCoroutine,
        m_res := Expected.value ((List.range (min size readBufSize)).map uninit) } := rfl

theorem ReadOperationPrivate.complete_of_value (size : Int) (d : ReadOperationPrivate)
    (buf : List Byte) (hres : d.m_res = Expected.value buf) :
    d.complete size = some
      ({ d with
          m_res :=
            if size < 0 then Expected.unexpected (negInt32 size)
            else if size < (buf.length : Int) then Expected.value (buf.take size.toNat)
            else Expected.value buf,
          m_complete := true },
        [{ msec := 0, coroutine := d.m_awaitingCoroutine }]) := by
  unfold ReadOperationPrivate.complete
  rw [hres]
  by_cases h1 : size < 0
  · simp [h1]
  · by_cases h2 : size < (buf.length : Int)
    · simp [h1, h2]
    · simp [h1, h2]

theorem ReadOperation.await_suspend_read_frame (h : CoroutineHandle) (d : ReadOperationPrivate) :
    (ReadOperation.await_suspend h d).m_complete = d.m_complete ∧
    (ReadOperation.await_suspend h d).m_res = d.m_res ∧
    (ReadOperation.await_suspend h d).m_awaitingCoroutine = h := ⟨rfl, rfl, rfl⟩

theorem WriteOperation.await_suspend_write_frame (h : CoroutineHandle) (d : WriteOperationPrivate) :
    (WriteOperation.await_suspend h d).m_complete = d.m_complete ∧
    (WriteOperation.await_suspend h d).m_res = d.m_res ∧
    (WriteOperation.await_suspend h d).m_awaitingCoroutine = h := ⟨rfl, rfl, rfl⟩

/-! ## Results of a completed write (C3) -/

/-- C3, as stated, fails at the smallest 32-bit result code: after
`complete(-2147483648)` a write record returns an error whose code is
`-2147483648`, not `2147483648`, which no `int` error code can be. -/
theorem write_complete_int32_min :
    isInt32 (-2147483648) ∧
    WriteOperation.await_resume (WriteOperationPrivate.complete (-2147483648) {}).1
      = Expected.unexpected (-2147483648) ∧
    WriteOperation.await_resume (WriteOperationPrivate.complete (-2147483648) {}).1
      ≠ Expected.unexpected (-(-2147483648)) := by
  refine ⟨by decide, by decide, by decide⟩

/-- C3, amended: for every write record and every result code `r`, after
`complete(r)` the value returned by `await_resume` is the success value `r`
when `r >= 0`, and an error whose code is `-r` when `-2147483648 < r < 0`;
the completion flag is set in both cases. -/
theorem write_complete_await_resume (d : WriteOperationPrivate) (r : Int) :
    (0 ≤ r → WriteOperation.await_resume (d.complete r).1 = Expected.value r) ∧
    (-2147483648 < r → r < 0 →
      WriteOperation.await_resume (d.complete r).1 = Expected.unexpected (-r)) ∧
    WriteOperation.await_ready (d.complete r).1 = true := by
  refine ⟨?_, ?_, rfl⟩
  · intro h0
    have hn : ¬ r < 0 := by omega
    simp [WriteOperation.await_resume, WriteOperationPrivate.complete, hn]
  · intro hmin hneg
    simp [WriteOperation.await_resume, WriteOperationPrivate.complete, hneg,
      negInt32_of_gt_min r hmin hneg]

/-- Instance of `write_complete_await_resume`: a fresh write record completed
with `100` returns `100`, completed with `-9` (`EBADF`) returns error `9`. -/
theorem write_complete_await_resume_witness :
    WriteOperation.await_resume (WriteOperationPrivate.complete 100 {}).1 = Expected.value 100 ∧
    WriteOperation.await_resume (WriteOperationPrivate.complete (-9) {}).1
      = Expected.unexpected (-(-9)) :=
  ⟨(write_complete_await_resume {} 100).1 (by decide),
   (write_complete_await_resume {} (-9)).2.1 (by decide) (by decide)⟩

/-! ## Results of a completed read (C4) -/

/-- C4, as stated, fails at the smallest 32-bit result code: a read record
created for 10 bytes and completed with `-2147483648` returns an error whose
code is `-2147483648`, not `2147483648`. -/
theorem read_complete_int32_min :
    isInt32 (-2147483648) ∧
    ((ReadOperationPrivate.ctor 1 (fun _ => 0) {} 3 10 0).1.complete (-2147483648)).map
        (fun p => ReadOperation.await_resume p.1)
      = some (Expected.unexpected (-2147483648)) ∧
    ((ReadOperationPrivate.ctor 1 (fun _ => 0) {} 3 10 0).1.complete (-2147483648)).map
        (fun p => ReadOperation.await_resume p.1)
      ≠ some (Expected.unexpected (-(-2147483648))) := by
  refine ⟨by decide, by decide, by decide⟩

/-- C4, amended: the record built by the constructor for requested size `s`
holds a buffer of `n = min(s, 4096)` bytes; and for every read record holding
a buffer `buf` of `n` bytes and every result code `r`, `complete(r)` returns
and afterwards `await_resume` gives: an error with code `-r` when
`-2147483648 < r < 0`; the first `r` bytes of `buf` (length exactly `r`) when
`0 <= r < n`; `buf` itself when `r >= n`. In every success case the length is
`min(r, n)` and at most 4096. -/
theorem read_complete_await_resume (this : Nat) (uninit : Nat → Byte) (ring : io_uring)
    (fd : Int) (s offset : Nat) (d : ReadOperationPrivate) (buf : List Byte) (r : Int)
    (hres : d.m_res = Expected.value buf) (hlen : buf.length = min s readBufSize) :
    (∃ b, (ReadOperationPrivate.ctor this uninit ring fd s offset).1.m_res = Expected.value b ∧
      b.length = min s readBufSize) ∧
    ∃ d' ts, d.complete r = some (d', ts) ∧
      ReadOperation.await_ready d' = true ∧
      (-2147483648 < r → r < 0 →
        ReadOperation.await_resume d' = Expected.unexpected (-r)) ∧
      (0 ≤ r → r < (min s readBufSize : Nat) →
        ReadOperation.await_resume d' = Expected.value (buf.take r.toNat) ∧
        ((buf.take r.toNat).length : Int) = r) ∧
      ((min s readBufSize : Nat) ≤ r →
        ReadOperation.await_resume d' = Expected.value buf) ∧
      (0 ≤ r → ∃ b, ReadOperation.await_resume d' = Expected.value b ∧
        (b.length : Int) = min r (min s readBufSize : Nat) ∧ b.length ≤ 4096) := by
  refine ⟨⟨_, by rw [ReadOperationPrivate.ctor_m_res], by simp⟩, ?_⟩
  refine ⟨_, _, ReadOperationPrivate.complete_of_value r d buf hres, rfl, ?_, ?_, ?_, ?_⟩
  · intro hmin hneg
    simp [ReadOperation.await_resume, hneg, negInt32_of_gt_min r hmin hneg]
  · intro h0 hlt
    have hn : ¬ r < 0 := by omega
    have hl : r < (buf.length : Int) := by rw [hlen]; exact hlt
    refine ⟨by simp [ReadOperation.await_resume, hn, hl], ?_⟩
    rw [List.length_take]
    omega
  · intro hge
    have hn : ¬ r < 0 := by omega
    have hl : ¬ r < (buf.length : Int) := by rw [hlen]; omega
    simp [ReadOperation.await_resume, hn, hl]
  · intro h0
    have hn : ¬ r < 0 := by omega
    have hcap : min s readBufSize ≤ 4096 := by unfold readBufSize; omega
    by_cases hl : r < (buf.length : Int)
    · refine ⟨buf.take r.toNat, by simp [ReadOperation.await_resume, hn, hl], ?_, ?_⟩
      · rw [List.length_take, ← hlen]; omega
      · rw [List.length_take]; omega
    · refine ⟨buf, by simp [ReadOperation.await_resume, hn, hl], ?_, ?_⟩
      · rw [← hlen]; omega
      · omega

/-- Instance of `read_complete_await_resume`: a read of 10 bytes whose buffer
was filled with `1, 2, ..., 10` and that completes with 5 returns the five
bytes `1, 2, 3, 4, 5`. -/
theorem read_complete_await_resume_witness :
    ∃ d' ts,
      ReadOperationPrivate.complete 5 { m_res := Expected.value [1, 2, 3, 4, 5, 6, 7, 8, 9, 10] }
        = some (d', ts) ∧
      ReadOperation.await_resume d' = Expected.value [1, 2, 3, 4, 5] := by
  obtain ⟨_, d', ts, hc, _, _, h, _, _⟩ :=
    read_complete_await_resume 1 (fun _ => 0) {} 3 10 0
      { m_res := Expected.value [1, 2, 3, 4, 5, 6, 7, 8, 9, 10] }
      [1, 2, 3, 4, 5, 6, 7, 8, 9, 10] 5 rfl (by decide)
  exact ⟨d', ts, hc, (h (by decide) (by decide)).1⟩

/-! ## Facts about `handleEventFd` shared by the theorems below -/

theorem IOEnginePrivate.handleEventFd_wait_failed (waitRet : Int) (w : World)
    (hret : waitRet < 0) :
    IOEnginePrivate.handleEventFd waitRet w =
      some { w with evCounter := 0, warnings := w.warnings + 1 } := by
  simp [IOEnginePrivate.handleEventFd, hret]

theorem IOEnginePrivate.handleEventFd_failed_entry (waitRet : Int) (w : World)
    (cqe : Cqe) (rest : List Cqe)
    (hret : 0 ≤ waitRet) (hcq : w.d.ring.cq = cqe :: rest) (hres : cqe.res < 0) :
    IOEnginePrivate.handleEventFd waitRet w =
      some { w with
        evCounter := 0, warnings := w.warnings + 1,
        d := { w.d with ring := io_uring_cqe_seen w.d.ring cqe } } := by
  have hn : ¬ waitRet < 0 := by omega
  simp [IOEnginePrivate.handleEventFd, hn, hcq, hres]

theorem IOEnginePrivate.handleEventFd_delivered (waitRet : Int) (w : World)
    (cqe : Cqe) (rest : List Cqe) (op op' : IOUringOperation) (ts : List SingleShot)
    (hret : 0 ≤ waitRet) (hcq : w.d.ring.cq = cqe :: rest) (hres : 0 ≤ cqe.res)
    (htag : cqe.user_data ≠ 0) (hop : w.heap cqe.user_data = some op)
    (hc : op.complete cqe.res = some (op', ts)) :
    IOEnginePrivate.handleEventFd waitRet w =
      some { w with
        evCounter := 0,
        heap := Function.update w.heap cqe.user_data (some op'),
        timers := w.timers ++ ts,
        d := { w.d with ring := io_uring_cqe_seen w.d.ring cqe } } := by
  have hn : ¬ waitRet < 0 := by omega
  have hr : ¬ cqe.res < 0 := by omega
  simp [IOEnginePrivate.handleEventFd, hn, hcq, hr, io_uring_cqe_get_data, htag, hop, hc]

theorem IOUringOperation.complete_of_holdsBuffer (size : Int) (op : IOUringOperation)
    (hb : op.holdsBuffer = true) :
    ∃ op' ts, op.complete size = some (op', ts) ∧ op'.m_complete = true ∧
      ts = [{ msec := 0, coroutine := op.m_awaitingCoroutine }] := by
  cases op with
  | read r =>
    rcases hm : r.m_res with buf | e
    · have h := ReadOperationPrivate.complete_of_value size r buf hm
      have h' : (IOUringOperation.read r).complete size = some
          (IOUringOperation.read { r with
              m_res :=
                if size < 0 then Expected.unexpected (negInt32 size)
                else if size < (buf.length : Int) then Expected.value (buf.take size.toNat)
                else Expected.value buf,
              m_complete := true },
            [{ msec := 0, coroutine := r.m_awaitingCoroutine }]) := by
        simp only [IOUringOperation.complete, h]
      exact ⟨_, _, h', rfl, rfl⟩
    · simp [IOUringOperation.holdsBuffer, hm] at hb
  | write wr =>
    exact ⟨_, _, rfl, rfl, rfl⟩

theorem io_uring_cqe_seen_of_cons (ring : io_uring) (cqe : Cqe) (rest : List Cqe)
    (hcq : ring.cq = cqe :: rest) :
    (io_uring_cqe_seen ring cqe).cq = rest ∧
    (io_uring_cqe_seen ring cqe).seen = ring.seen ++ [cqe] := by
  simp [io_uring_cqe_seen, hcq]

theorem IOEngine.read_fst (uninit : Nat → Byte) (fd : Int) (size offset : Nat) (w : World) :
    (IOEngine.read uninit fd size offset w).1 = w.allocated + 1 := rfl

theorem IOEngine.read_heap (uninit : Nat → Byte) (fd : Int) (size offset : Nat) (w : World) :
    (IOEngine.read uninit fd size offset w).2.heap =
      Function.update w.heap (w.allocated + 1)
        (some (IOUringOperation.read
          { m_complete := false, m_awaitingCoroutine := nullCoroutine,
            m_res := Expected.value ((List.range (min size readBufSize)).map uninit) })) := rfl

theorem IOEngine.read_submitted (uninit : Nat → Byte) (fd : Int) (size offset : Nat)
    (w : World) :
    (IOEngine.read uninit fd size offset w).2.d.ring.submitted =
      w.d.ring.submitted ++
        [{ opcode := Opcode.read, fd := fd,
           addr := BufferRef.recordBuffer (w.allocated + 1),
           len := min size readBufSize, off := offset,
           user_data := w.allocated + 1 }] := by
  have hlt : min size readBufSize % 4294967296 = min size readBufSize := by
    unfold readBufSize
    omega
  simp [IOEngine.read, ReadOperationPrivate.ctor, World.newAddress, io_uring_submit,
    io_uring_sqe_set_data, io_uring_prep_read, hlt]

theorem IOEngine.read_cq (uninit : Nat → Byte) (fd : Int) (size offset : Nat) (w : World) :
    (IOEngine.read uninit fd size offset w).2.d.ring.cq = w.d.ring.cq := rfl

theorem IOEngine.write_fst (fd : Int) (data dataLen offset : Nat) (w : World) :
    (IOEngine.write fd data dataLen offset w).1 = w.allocated + 1 := rfl

theorem IOEngine.write_heap (fd : Int) (data dataLen offset : Nat) (w : World) :
    (IOEngine.write fd data dataLen offset w).2.heap =
      Function.update w.heap (w.allocated + 1)
        (some (IOUringOperation.write
          { m_complete := false, m_awaitingCoroutine := nullCoroutine,
            m_res := Expected.value 0 })) := rfl

theorem IOEngine.write_submitted (fd : Int) (data dataLen offset : Nat) (w : World) :
    (IOEngine.write fd data dataLen offset w).2.d.ring.submitted =
      w.d.ring.submitted ++
        [{ opcode := Opcode.write, fd := fd,
           addr := BufferRef.callerData data,
           len := dataLen % 4294967296, off := offset,
           user_data := w.allocated + 1 }] := by
  simp [IOEngine.write, WriteOperationPrivate.ctor, World.newAddress, io_uring_submit,
    io_uring_sqe_set_data, io_uring_prep_write]

theorem IOEngine.write_cq (fd : Int) (data dataLen offset : Nat) (w : World) :
    (IOEngine.write fd data dataLen offset w).2.d.ring.cq = w.d.ring.cq := rfl

theorem kernelPost_heap (cqe : Cqe) (w : World) : (kernelPost cqe w).heap = w.heap := rfl

theorem kernelPost_cq (cqe : Cqe) (w : World) :
    (kernelPost cqe w).d.ring.cq = w.d.ring.cq ++ [cqe] := rfl

/-! ## Every record handed to `complete` can take a result

`handleEventFd` calls `complete` only with a result that is not negative, so no
read record ever loses its buffer: the assumption `holdsBuffer` made on the
tagged record in the theorems below holds in every state the engine can
reach. -/

theorem IOUringOperation.holdsBuffer_of_complete (size : Int) (op op' : IOUringOperation)
    (ts : List SingleShot) (hsize : 0 ≤ size) (hc : op.complete size = some (op', ts)) :
    op'.holdsBuffer = true := by
  have hn : ¬ size < 0 := by omega
  cases op with
  | read r =>
    rcases hm : r.m_res with buf | e
    · rw [IOUringOperation.complete, ReadOperationPrivate.complete_of_value size r buf hm] at hc
      simp only [Option.some.injEq, Prod.mk.injEq] at hc
      rw [← hc.1]
      by_cases hl : size < (buf.length : Int)
      · simp [IOUringOperation.holdsBuffer, hn, hl]
      · simp [IOUringOperation.holdsBuffer, hn, hl]
    · simp [IOUringOperation.complete, ReadOperationPrivate.complete, hn, hm] at hc
  | write wr =>
    simp only [IOUringOperation.complete, Option.some.injEq, Prod.mk.injEq] at hc
    rw [← hc.1]
    rfl

theorem World.recordsHoldBuffer_ctor : IOEngine.ctor.recordsHoldBuffer := by
  intro a op h
  simp [IOEngine.ctor] at h

theorem World.recordsHoldBuffer_read (uninit : Nat → Byte) (fd : Int) (size offset : Nat)
    (w : World) (hw : w.recordsHoldBuffer) :
    (IOEngine.read uninit fd size offset w).2.recordsHoldBuffer := by
  intro a op h
  rw [IOEngine.read_heap] at h
  by_cases ha : a = w.allocated + 1
  · subst ha
    rw [Function.update_same] at h
    cases h
    rfl
  · rw [Function.update_noteq ha] at h
    exact hw a op h

theorem World.recordsHoldBuffer_write (fd : Int) (data dataLen offset : Nat)
    (w : World) (hw : w.recordsHoldBuffer) :
    (IOEngine.write fd data dataLen offset w).2.recordsHoldBuffer := by
  intro a op h
  rw [IOEngine.write_heap] at h
  by_cases ha : a = w.allocated + 1
  · subst ha
    rw [Function.update_same] at h
    cases h
    rfl
  · rw [Function.update_noteq ha] at h
    exact hw a op h

theorem World.recordsHoldBuffer_kernelPost (cqe : Cqe) (w : World) (hw : w.recordsHoldBuffer) :
    (kernelPost cqe w).recordsHoldBuffer := hw

theorem World.recordsHoldBuffer_handleEventFd (waitRet : Int) (w w' : World)
    (hw : w.recordsHoldBuffer) (h : IOEnginePrivate.handleEventFd waitRet w = some w') :
    w'.recordsHoldBuffer := by
  by_cases hret : waitRet < 0
  · rw [IOEnginePrivate.handleEventFd_wait_failed waitRet w hret] at h
    cases h
    exact hw
  · rcases hcq : w.d.ring.cq with _ | ⟨cqe, rest⟩
    · simp [IOEnginePrivate.handleEventFd, hret, hcq] at h
    · by_cases hres : cqe.res < 0
      · rw [IOEnginePrivate.handleEventFd_failed_entry waitRet w cqe rest (by omega) hcq hres] at h
        cases h
        exact hw
      · rcases hop : io_uring_cqe_get_data w.heap cqe with _ | op
        · simp [IOEnginePrivate.handleEventFd, hret, hcq, hres, hop] at h
        · rcases hc : op.complete cqe.res with _ | ⟨op', ts⟩
          · simp [IOEnginePrivate.handleEventFd, hret, hcq, hres, hop, hc] at h
          · simp only [IOEnginePrivate.handleEventFd, hret, hcq, hres, hop, hc, if_false,
              Option.some.injEq] at h
            subst h
            intro a x hx
            by_cases ha : a = cqe.user_data
            · subst ha
              simp only [Function.update_same, Option.some.injEq] at hx
              subst hx
              exact IOUringOperation.holdsBuffer_of_complete cqe.res op op' ts (by omega) hc
            · simp only [Function.update_noteq ha] at hx
              exact hw a x hx

/-! ## Completion entries with a negative result (C1) -/

/-- C1 fails on the code: for every completion entry whose wait succeeds and
whose result code is negative, `handleEventFd` returns with every record and
the timer queue unchanged, and marks the entry consumed. The record tagged on
the entry keeps its completion flag and its result slot, so nothing is
delivered and nothing will resume the awaiting computation. -/
theorem handleEventFd_drops_failed_entry (waitRet : Int) (w : World)
    (cqe : Cqe) (rest : List Cqe)
    (hret : 0 ≤ waitRet) (hcq : w.d.ring.cq = cqe :: rest) (hres : cqe.res < 0) :
    ∃ w', IOEnginePrivate.handleEventFd waitRet w = some w' ∧
      w'.heap = w.heap ∧ w'.timers = w.timers ∧ w'.resumed = w.resumed ∧
      w'.d.ring.cq = rest ∧ w'.d.ring.seen = w.d.ring.seen ++ [cqe] := by
  refine ⟨_, IOEnginePrivate.handleEventFd_failed_entry waitRet w cqe rest hret hcq hres,
    rfl, rfl, rfl, ?_, ?_⟩
  · exact (io_uring_cqe_seen_of_cons w.d.ring cqe rest hcq).1
  · exact (io_uring_cqe_seen_of_cons w.d.ring cqe rest hcq).2

/-- Instance of `handleEventFd_drops_failed_entry`: a write of 100 bytes whose
completion entry carries `-9` (`EBADF`). After the dispatch the write record is
still incomplete, its result slot still holds the initial value `0`, no timer
is pending and the entry is consumed. -/
theorem handleEventFd_drops_failed_entry_witness :
    ∃ w', IOEnginePrivate.handleEventFd 0
        (kernelPost { user_data := exampleWrite.1, res := -9 } exampleWrite.2) = some w' ∧
      w'.heap exampleWrite.1 = some (IOUringOperation.write
        { m_complete := false, m_awaitingCoroutine := nullCoroutine,
          m_res := Expected.value 0 }) ∧
      w'.timers = [] ∧
      w'.d.ring.cq = [] ∧
      w'.d.ring.seen = [{ user_data := exampleWrite.1, res := -9 }] := by
  obtain ⟨w', h, hheap, htimers, _, hcq, hseen⟩ :=
    handleEventFd_drops_failed_entry 0
      (kernelPost { user_data := exampleWrite.1, res := -9 } exampleWrite.2)
      { user_data := exampleWrite.1, res := -9 } [] (by decide) rfl (by decide)
  refine ⟨w', h, ?_, ?_, hcq, ?_⟩
  · rw [hheap]; rfl
  · rw [htimers]; rfl
  · rw [hseen]; rfl

/-! ## What one dispatch changes (C10) -/

/-- C10: in every state, a dispatch whose wait fails returns and leaves every
record, the timer queue, the resumed coroutines and the whole engine object
(so the ring, with its pending and its consumed entries) unchanged; a dispatch
whose wait succeeds and that returns has marked exactly one entry consumed, the
oldest one, whatever the sign of its result; and it does return whenever the
result is negative or the tag is the address of a record that can take a
result. -/
theorem handleEventFd_consumes_one (waitRet : Int) (w : World) :
    (waitRet < 0 → ∃ w', IOEnginePrivate.handleEventFd waitRet w = some w' ∧
      w'.heap = w.heap ∧ w'.timers = w.timers ∧ w'.resumed = w.resumed ∧ w'.d = w.d) ∧
    (0 ≤ waitRet → ∀ w', IOEnginePrivate.handleEventFd waitRet w = some w' →
      ∃ cqe, w.d.ring.cq = cqe :: w'.d.ring.cq ∧ w'.d.ring.seen = w.d.ring.seen ++ [cqe] ∧
        w'.d.ring.seen.length = w.d.ring.seen.length + 1) ∧
    (0 ≤ waitRet → ∀ cqe rest, w.d.ring.cq = cqe :: rest →
      (cqe.res < 0 ∨ ∃ op, cqe.user_data ≠ 0 ∧ w.heap cqe.user_data = some op ∧
        op.holdsBuffer = true) →
      ∃ w', IOEnginePrivate.handleEventFd waitRet w = some w') := by
  refine ⟨?_, ?_, ?_⟩
  · intro hret
    exact ⟨_, IOEnginePrivate.handleEventFd_wait_failed waitRet w hret, rfl, rfl, rfl, rfl⟩
  · intro hret w' hw'
    have hn : ¬ waitRet < 0 := by omega
    rcases hcq : w.d.ring.cq with _ | ⟨cqe, rest⟩
    · simp [IOEnginePrivate.handleEventFd, hn, hcq] at hw'
    · have hseen := io_uring_cqe_seen_of_cons w.d.ring cqe rest hcq
      by_cases hres : cqe.res < 0
      · rw [IOEnginePrivate.handleEventFd_failed_entry waitRet w cqe rest hret hcq hres] at hw'
        cases hw'
        exact ⟨cqe, by rw [← hseen.1], hseen.2, by rw [hseen.2]; simp⟩
      · rcases hop : io_uring_cqe_get_data w.heap cqe with _ | op
        · simp [IOEnginePrivate.handleEventFd, hn, hcq, hres, hop] at hw'
        · rcases hc : op.complete cqe.res with _ | ⟨op', ts⟩
          · simp [IOEnginePrivate.handleEventFd, hn, hcq, hres, hop, hc] at hw'
          · simp only [IOEnginePrivate.handleEventFd, hn, hcq, hres, hop, hc, if_false,
              Option.some.injEq] at hw'
            subst hw'
            exact ⟨cqe, by rw [← hseen.1], hseen.2, by rw [hseen.2]; simp⟩
  · intro hret cqe rest hcq h
    rcases h with hres | ⟨op, htag, hop, hb⟩
    · exact ⟨_, IOEnginePrivate.handleEventFd_failed_entry waitRet w cqe rest hret hcq hres⟩
    · by_cases hres : cqe.res < 0
      · exact ⟨_, IOEnginePrivate.handleEventFd_failed_entry waitRet w cqe rest hret hcq hres⟩
      · obtain ⟨op', ts, hc, _, _⟩ := IOUringOperation.complete_of_holdsBuffer cqe.res op hb
        exact ⟨_, IOEnginePrivate.handleEventFd_delivered waitRet w cqe rest op op' ts hret hcq
          (by omega) htag hop hc⟩

/-- Instance of `handleEventFd_consumes_one`: with the completion of a read
pending, a dispatch whose wait fails with `-4` (`EINTR`) leaves the read record
incomplete and the entry pending, and a dispatch whose wait succeeds
returns. -/
theorem handleEventFd_consumes_one_witness :
    (∃ w', IOEnginePrivate.handleEventFd (-4)
        (kernelPost { user_data := exampleRead.1, res := 5 } exampleRead.2) = some w' ∧
      (w'.heap exampleRead.1).map IOUringOperation.m_complete = some false ∧
      w'.timers = [] ∧
      w'.d.ring.cq = [{ user_data := exampleRead.1, res := 5 }] ∧ w'.d.ring.seen = []) ∧
    (∃ w', IOEnginePrivate.handleEventFd 0
        (kernelPost { user_data := exampleRead.1, res := 5 } exampleRead.2) = some w') := by
  constructor
  · obtain ⟨w', h, hheap, htimers, _, hd⟩ :=
      (handleEventFd_consumes_one (-4)
        (kernelPost { user_data := exampleRead.1, res := 5 } exampleRead.2)).1 (by decide)
    refine ⟨w', h, ?_, ?_, ?_, ?_⟩
    · rw [hheap]; rfl
    · rw [htimers]; rfl
    · rw [hd]; rfl
    · rw [hd]; rfl
  · exact (handleEventFd_consumes_one 0
      (kernelPost { user_data := exampleRead.1, res := 5 } exampleRead.2)).2.2 (by decide)
        { user_data := exampleRead.1, res := 5 } [] rfl
        (Or.inr ⟨IOUringOperation.read
          { m_res := Expected.value ((List.range (min 10 readBufSize)).map (fun _ => 0)) },
          by decide, rfl, rfl⟩)

/-! ## Tags (C7) -/

/-- C7: the entry submitted by `read` and the entry submitted by `write` carry
as tag the address of the record created by that call, which is not null and
differs from the address the next call will use; and for every completion
entry whose wait succeeds, whose result is not negative and whose tag is the
non-null address of a record that can take a result, one dispatch returns,
stores the completed record (flag set) at exactly that address, leaves the
record at every other address unchanged and marks exactly that entry
consumed. -/
theorem tag_integrity (uninit : Nat → Byte) (fd : Int) (size offset data dataLen : Nat)
    (waitRet : Int) (w : World) (cqe : Cqe) (rest : List Cqe) (op : IOUringOperation) :
    (∃ sqe dd, (IOEngine.read uninit fd size offset w).2.d.ring.submitted
          = w.d.ring.submitted ++ [sqe] ∧
        sqe.user_data = (IOEngine.read uninit fd size offset w).1 ∧
        (IOEngine.read uninit fd size offset w).1 ≠ 0 ∧
        (IOEngine.read uninit fd size offset w).2.newAddress
          ≠ (IOEngine.read uninit fd size offset w).1 ∧
        (IOEngine.read uninit fd size offset w).2.heap (IOEngine.read uninit fd size offset w).1
          = some (IOUringOperation.read dd)) ∧
    (∃ sqe dd, (IOEngine.write fd data dataLen offset w).2.d.ring.submitted
          = w.d.ring.submitted ++ [sqe] ∧
        sqe.user_data = (IOEngine.write fd data dataLen offset w).1 ∧
        (IOEngine.write fd data dataLen offset w).1 ≠ 0 ∧
        (IOEngine.write fd data dataLen offset w).2.newAddress
          ≠ (IOEngine.write fd data dataLen offset w).1 ∧
        (IOEngine.write fd data dataLen offset w).2.heap (IOEngine.write fd data dataLen offset w).1
          = some (IOUringOperation.write dd)) ∧
    (0 ≤ waitRet → w.d.ring.cq = cqe :: rest → 0 ≤ cqe.res → cqe.user_data ≠ 0 →
      w.heap cqe.user_data = some op → op.holdsBuffer = true →
      ∃ w' op' ts, IOEnginePrivate.handleEventFd waitRet w = some w' ∧
        op.complete cqe.res = some (op', ts) ∧
        w'.heap cqe.user_data = some op' ∧ op'.m_complete = true ∧
        (∀ a, a ≠ cqe.user_data → w'.heap a = w.heap a) ∧
        w'.d.ring.cq = rest ∧ w'.d.ring.seen = w.d.ring.seen ++ [cqe]) := by
  refine ⟨?_, ?_, ?_⟩
  · refine ⟨_, ({ m_complete := false, m_awaitingCoroutine := nullCoroutine,
                    m_res := Expected.value ((List.range (min size readBufSize)).map uninit) } :
        ReadOperationPrivate),
      IOEngine.read_submitted uninit fd size offset w, rfl, ?_, ?_, ?_⟩
    · rw [IOEngine.read_fst]; omega
    · show w.allocated + 1 + 1 ≠ w.allocated + 1
      omega
    · rw [IOEngine.read_heap, IOEngine.read_fst, Function.update_same]
  · refine ⟨_, ({ m_complete := false, m_awaitingCoroutine := nullCoroutine,
                    m_res := Expected.value 0 } : WriteOperationPrivate),
      IOEngine.write_submitted fd data dataLen offset w, rfl, ?_, ?_, ?_⟩
    · rw [IOEngine.write_fst]; omega
    · show w.allocated + 1 + 1 ≠ w.allocated + 1
      omega
    · rw [IOEngine.write_heap, IOEngine.write_fst, Function.update_same]
  · intro hret hcq hres htag hop hb
    obtain ⟨op', ts, hc, hflag, _⟩ := IOUringOperation.complete_of_holdsBuffer cqe.res op hb
    have hseen := io_uring_cqe_seen_of_cons w.d.ring cqe rest hcq
    refine ⟨_, op', ts,
      IOEnginePrivate.handleEventFd_delivered waitRet w cqe rest op op' ts hret hcq hres htag hop hc,
      hc, by simp, hflag, ?_, hseen.1, hseen.2⟩
    intro a ha
    simp [Function.update, ha]

/-- Instance of `tag_integrity`: with a write record at address 1 and a read
record at address 2, the dispatch of the entry tagged 2 with result 5 completes
the read record and leaves the write record untouched. -/
theorem tag_integrity_witness :
    ∃ w', IOEnginePrivate.handleEventFd 0
        (kernelPost { user_data := 2, res := 5 }
          (IOEngine.read (fun _ => 0) 3 10 0 exampleWrite.2).2) = some w' ∧
      (w'.heap 2).map IOUringOperation.m_complete = some true ∧
      w'.heap 1 = some (IOUringOperation.write {}) ∧
      w'.d.ring.cq = [] ∧ w'.d.ring.seen = [{ user_data := 2, res := 5 }] := by
  obtain ⟨w', op', ts, h, _, hheap, hflag, hother, hcq, hseen⟩ :=
    (tag_integrity (fun _ => 0) 3 10 0 0 0 0
      (kernelPost { user_data := 2, res := 5 }
        (IOEngine.read (fun _ => 0) 3 10 0 exampleWrite.2).2)
      { user_data := 2, res := 5 } []
      (IOUringOperation.read
        { m_res := Expected.value ((List.range (min 10 readBufSize)).map (fun _ => 0)) })).2.2
      (by decide) rfl (by decide) (by decide) rfl rfl
  refine ⟨w', h, ?_, ?_, hcq, ?_⟩
  · rw [hheap]; exact congrArg some hflag
  · rw [hother 1 (by decide)]; rfl
  · rw [hseen]; rfl

/-! ## Submission of a read (C5) -/

/-- C5: for every `fd`, `size` and `offset`, `read` appends exactly one entry
to the submitted entries: a read of `min(size, 4096)` bytes from `fd` at
`offset` into the buffer of the new record, tagged with the new record; the
new record is not complete, has no awaiting coroutine and holds a buffer of
exactly `min(size, 4096)` bytes. When moreover `size <= 4096` and no other
completion is pending, the dispatch of a completion entry for this record
whose result equals `size` returns and leaves the record complete with a
buffer whose length is `size`. -/
theorem read_submits_capped (uninit : Nat → Byte) (fd : Int) (size offset : Nat) (w : World) :
    (IOEngine.read uninit fd size offset w).2.d.ring.submitted
      = w.d.ring.submitted ++
        [{ opcode := Opcode.read, fd := fd,
           addr := BufferRef.recordBuffer (IOEngine.read uninit fd size offset w).1,
           len := min size readBufSize, off := offset,
           user_data := (IOEngine.read uninit fd size offset w).1 }] ∧
    (∃ buf, (IOEngine.read uninit fd size offset w).2.heap (IOEngine.read uninit fd size offset w).1
        = some (IOUringOperation.read
            { m_complete := false, m_awaitingCoroutine := nullCoroutine,
              m_res := Expected.value buf }) ∧
      buf.length = min size readBufSize) ∧
    ((IOEngine.read uninit fd size offset w).2.heap (IOEngine.read uninit fd size offset w).1).map
      IOUringOperation.await_ready = some false ∧
    (size ≤ 4096 → w.d.ring.cq = [] → ∀ waitRet : Int, 0 ≤ waitRet →
      ∃ w' d' b, IOEnginePrivate.handleEventFd waitRet
          (kernelPost { user_data := (IOEngine.read uninit fd size offset w).1, res := size }
            (IOEngine.read uninit fd size offset w).2) = some w' ∧
        w'.heap (IOEngine.read uninit fd size offset w).1 = some (IOUringOperation.read d') ∧
        ReadOperation.await_ready d' = true ∧
        ReadOperation.await_resume d' = Expected.value b ∧ b.length = size) := by
  refine ⟨IOEngine.read_submitted uninit fd size offset w,
    ⟨(List.range (min size readBufSize)).map uninit, ?_, by simp⟩, ?_, ?_⟩
  · rw [IOEngine.read_heap, IOEngine.read_fst, Function.update_same]
  · rw [IOEngine.read_heap, IOEngine.read_fst, Function.update_same]
    rfl
  intro hsize hcq waitRet hret
  have hmin : min size readBufSize = size := by unfold readBufSize; omega
  have hc := ReadOperationPrivate.complete_of_value (size : Int)
    { m_complete := false, m_awaitingCoroutine := nullCoroutine,
      m_res := Expected.value ((List.range (min size readBufSize)).map uninit) }
    ((List.range (min size readBufSize)).map uninit) rfl
  have hn : ¬ (size : Int) < 0 := by omega
  have hl : ¬ (size : Int) < (((List.range (min size readBufSize)).map uninit).length : Int) := by
    simp [hmin]
  simp only [hn, hl, if_false] at hc
  have hc' : (IOUringOperation.read
      { m_complete := false, m_awaitingCoroutine := nullCoroutine,
        m_res := Expected.value ((List.range (min size readBufSize)).map uninit) }).complete
        (size : Int) = some
      (IOUringOperation.read
        { m_complete := true, m_awaitingCoroutine := nullCoroutine,
          m_res := Expected.value ((List.range (min size readBufSize)).map uninit) },
       [{ msec := 0, coroutine := nullCoroutine }]) := by
    simp only [IOUringOperation.complete, hc]
  have hd := IOEnginePrivate.handleEventFd_delivered waitRet
    (kernelPost { user_data := (IOEngine.read uninit fd size offset w).1, res := size }
      (IOEngine.read uninit fd size offset w).2)
    { user_data := (IOEngine.read uninit fd size offset w).1, res := size } [] _ _ _ hret
    (by rw [kernelPost_cq, IOEngine.read_cq, hcq]; rfl)
    (by show (0 : Int) ≤ (size : Int); omega)
    (by show w.allocated + 1 ≠ 0; omega)
    (by rw [kernelPost_heap, IOEngine.read_heap]; exact Function.update_same _ _ _)
    hc'
  refine ⟨_, ({ m_complete := true, m_awaitingCoroutine := nullCoroutine,
                m_res := Expected.value ((List.range (min size readBufSize)).map uninit) } :
      ReadOperationPrivate),
    (List.range (min size readBufSize)).map uninit, hd, ?_, rfl, rfl, by simp [hmin]⟩
  exact Function.update_same _ _ _

/-- Instance of `read_submits_capped`: a read of 10 bytes on the example engine
whose completion entry carries 10 ends with a buffer of 10 bytes. -/
theorem read_submits_capped_witness :
    ∃ w' d' b, IOEnginePrivate.handleEventFd 0
        (kernelPost { user_data := exampleRead.1, res := 10 } exampleRead.2) = some w' ∧
      w'.heap exampleRead.1 = some (IOUringOperation.read d') ∧
      ReadOperation.await_ready d' = true ∧
      ReadOperation.await_resume d' = Expected.value b ∧ b.length = 10 :=
  (read_submits_capped (fun _ => 0) 3 10 0 exampleEngine).2.2.2 (by decide) rfl 0 (by decide)

/-! ## Readiness after a dispatch (C6) -/

/-- C6 fails on the code for negative result codes: when the completion entry
of a read or of a write carries a negative result and the dispatch processes
it before the caller inspects readiness, the dispatch returns and `await_ready`
on the awaitable is still `false`. -/
theorem await_ready_false_after_failed_entry (uninit : Nat → Byte) (fd : Int)
    (size offset data dataLen : Nat) (w : World) (waitRet res : Int)
    (hcq : w.d.ring.cq = []) (hret : 0 ≤ waitRet) (hres : res < 0) :
    (∃ w', IOEnginePrivate.handleEventFd waitRet
        (kernelPost { user_data := (IOEngine.read uninit fd size offset w).1, res := res }
          (IOEngine.read uninit fd size offset w).2) = some w' ∧
      (w'.heap (IOEngine.read uninit fd size offset w).1).map IOUringOperation.await_ready
        = some false) ∧
    (∃ w', IOEnginePrivate.handleEventFd waitRet
        (kernelPost { user_data := (IOEngine.write fd data dataLen offset w).1, res := res }
          (IOEngine.write fd data dataLen offset w).2) = some w' ∧
      (w'.heap (IOEngine.write fd data dataLen offset w).1).map IOUringOperation.await_ready
        = some false) := by
  constructor
  · refine ⟨_, IOEnginePrivate.handleEventFd_failed_entry waitRet _
      { user_data := (IOEngine.read uninit fd size offset w).1, res := res } [] hret
      (by rw [kernelPost_cq, IOEngine.read_cq, hcq]; rfl) hres, ?_⟩
    show ((IOEngine.read uninit fd size offset w).2.heap
      (IOEngine.read uninit fd size offset w).1).map IOUringOperation.await_ready = some false
    rw [IOEngine.read_heap, IOEngine.read_fst, Function.update_same]
    rfl
  · refine ⟨_, IOEnginePrivate.handleEventFd_failed_entry waitRet _
      { user_data := (IOEngine.write fd data dataLen offset w).1, res := res } [] hret
      (by rw [kernelPost_cq, IOEngine.write_cq, hcq]; rfl) hres, ?_⟩
    show ((IOEngine.write fd data dataLen offset w).2.heap
      (IOEngine.write fd data dataLen offset w).1).map IOUringOperation.await_ready = some false
    rw [IOEngine.write_heap, IOEngine.write_fst, Function.update_same]
    rfl

/-- Instance of `await_ready_false_after_failed_entry`: a read of 10 bytes
whose completion entry carries `-9` (`EBADF`) is not ready after the
dispatch. -/
theorem await_ready_false_after_failed_entry_witness :
    ∃ w', IOEnginePrivate.handleEventFd 0
        (kernelPost { user_data := exampleRead.1, res := -9 } exampleRead.2) = some w' ∧
      (w'.heap exampleRead.1).map IOUringOperation.await_ready = some false :=
  (await_ready_false_after_failed_entry (fun _ => 0) 3 10 0 0 0 exampleEngine 0 (-9)
    rfl (by decide) (by decide)).1

/-! ## Resumption scheduled by `complete` (C9) -/

/-- C9 fails on the code: for every read or write record on which no
computation has suspended (its handle is the empty one) and every result code,
`complete` returns with the flag set and has registered one timer whose lambda
resumes the empty handle. -/
theorem complete_schedules_empty_handle (op : IOUringOperation) (size : Int)
    (hb : op.holdsBuffer = true) (hnull : op.m_awaitingCoroutine = nullCoroutine) :
    ∃ op', op.complete size = some (op', [{ msec := 0, coroutine := nullCoroutine }]) ∧
      op'.m_complete = true := by
  obtain ⟨op', ts, hc, hflag, hts⟩ := IOUringOperation.complete_of_holdsBuffer size op hb
  rw [hnull] at hts
  rw [hts] at hc
  exact ⟨op', hc, hflag⟩

/-- Instance of `complete_schedules_empty_handle`: a fresh write record
completed with 100 registers a timer for the empty handle; running that timer
is undefined. -/
theorem complete_schedules_empty_handle_witness :
    (∃ op', (IOUringOperation.write {}).complete 100
        = some (op', [{ msec := 0, coroutine := nullCoroutine }]) ∧ op'.m_complete = true) ∧
    fireTimer { timers := [{ msec := 0, coroutine := nullCoroutine }] } = none :=
  ⟨complete_schedules_empty_handle (IOUringOperation.write {}) 100 rfl rfl, rfl⟩

/-! ## Failure paths of `init` (C2) -/

/-- C2 fails on the code: when the descriptor is created (`efd >= 0`) and the
ring creation fails, `init` returns false with the notifier still watching the
closed descriptor; when the ring is created and the registration fails, `init`
returns false with the ring still created (no `io_uring_queue_exit` is called)
and the notifier still watching the closed descriptor. -/
theorem init_failure_keeps_notifier_and_ring (efd qinit reg ringFd : Int) (w : World)
    (hefd : 0 ≤ efd) :
    (qinit < 0 →
      (IOEngine.init efd qinit reg ringFd w).1 = false ∧
      (IOEngine.init efd qinit reg ringFd w).2.d.socketNotifier
        = some { socket := efd, enabled := true } ∧
      (IOEngine.init efd qinit reg ringFd w).2.calls
        = w.calls ++ [Call.eventfd, Call.io_uring_queue_init ringEntryCount, Call.close efd]) ∧
    (0 ≤ qinit → reg < 0 →
      (IOEngine.init efd qinit reg ringFd w).1 = false ∧
      (IOEngine.init efd qinit reg ringFd w).2.d.ring.created = true ∧
      (IOEngine.init efd qinit reg ringFd w).2.d.socketNotifier
        = some { socket := efd, enabled := true } ∧
      (IOEngine.init efd qinit reg ringFd w).2.calls
        = w.calls ++ [Call.eventfd, Call.io_uring_queue_init ringEntryCount,
            Call.io_uring_register_eventfd efd, Call.close efd]) := by
  have h1 : ¬ efd < 0 := by omega
  constructor
  · intro hq
    simp [IOEngine.init, sys_eventfd, sys_close, io_uring_queue_init, h1, hq]
  · intro hq hr
    have h2 : ¬ qinit < 0 := by omega
    simp [IOEngine.init, sys_eventfd, sys_close, io_uring_queue_init,
      io_uring_register_eventfd, h1, h2, hr]

/-- Instance of `init_failure_keeps_notifier_and_ring`: on a fresh engine, with
`eventfd` returning 5, ring creation returning 0 with ring descriptor 6 and
registration returning `-22` (`EINVAL`), `init` returns false, the ring stays
created with its descriptor 6 open, the notifier stays on descriptor 5, and
descriptor 5 is closed. -/
theorem init_failure_keeps_notifier_and_ring_witness :
    (IOEngine.init 5 0 (-22) 6 IOEngine.ctor).1 = false ∧
    (IOEngine.init 5 0 (-22) 6 IOEngine.ctor).2.d.ring.created = true ∧
    (IOEngine.init 5 0 (-22) 6 IOEngine.ctor).2.d.socketNotifier
      = some { socket := 5, enabled := true } ∧
    (IOEngine.init 5 0 (-22) 6 IOEngine.ctor).2.openFds = [6] :=
  ⟨((init_failure_keeps_notifier_and_ring 5 0 (-22) 6 IOEngine.ctor (by decide)).2
      (by decide) (by decide)).1,
   ((init_failure_keeps_notifier_and_ring 5 0 (-22) 6 IOEngine.ctor (by decide)).2
      (by decide) (by decide)).2.1,
   ((init_failure_keeps_notifier_and_ring 5 0 (-22) 6 IOEngine.ctor (by decide)).2
      (by decide) (by decide)).2.2.1,
   by decide⟩

/-! ## Destruction (C8) -/

theorem IOEngine.dtor_call_order (w : World) :
    (IOEngine.dtor w).calls
      = w.calls ++ [Call.io_uring_unregister_eventfd]
          ++ (if 0 < w.d.evfd then [Call.close w.d.evfd] else [])
          ++ [Call.io_uring_queue_exit] := by
  by_cases h : 0 < w.d.evfd
  · simp [IOEngine.dtor, io_uring_unregister_eventfd, io_uring_queue_exit, sys_close, h]
  · simp [IOEngine.dtor, io_uring_unregister_eventfd, io_uring_queue_exit, sys_close, h]

/-- C8 fails on the code in two states. Destroying a never-initialised engine,
in a process whose descriptors 0, 1 and 2 are open, calls
`io_uring_unregister_eventfd` and `io_uring_queue_exit` on the ring that was
never created, and the latter closes descriptor 0, which the engine never
opened. Destroying an engine whose `init` succeeded with `eventfd` returning
descriptor 0 (ring descriptor 6) makes no `close` call for the wakeup
descriptor: descriptor 0 stays open. -/
theorem dtor_unguarded :
    (({ IOEngine.ctor with openFds := [0, 1, 2] } : World).d.ring.created = false ∧
      (IOEngine.dtor { IOEngine.ctor with openFds := [0, 1, 2] }).calls
        = [Call.io_uring_unregister_eventfd, Call.io_uring_queue_exit] ∧
      (IOEngine.dtor { IOEngine.ctor with openFds := [0, 1, 2] }).openFds = [1, 2]) ∧
    ((IOEngine.init 0 0 0 6 IOEngine.ctor).1 = true ∧
      (IOEngine.init 0 0 0 6 IOEngine.ctor).2.d.evfd = 0 ∧
      (IOEngine.init 0 0 0 6 IOEngine.ctor).2.openFds = [6, 0] ∧
      (IOEngine.dtor (IOEngine.init 0 0 0 6 IOEngine.ctor).2).calls
        = [Call.eventfd, Call.io_uring_queue_init 8, Call.io_uring_register_eventfd 0,
           Call.io_uring_unregister_eventfd, Call.io_uring_queue_exit] ∧
      (IOEngine.dtor (IOEngine.init 0 0 0 6 IOEngine.ctor).2).openFds = [0]) := by
  refine ⟨⟨rfl, by decide, by decide⟩, by decide, by decide, by decide, by decide, by decide⟩

end QCoro
